import Mathlib

/-!
Verification development for `drf_extra_fields/parameterized.py`.

The file shallowly embeds the module's data model and operations:
insertion-ordered dictionaries (Python `dict`), the route resolver
(`get_resource_items`, `lookup_serializer_parameters`), the merged maps
(`merge_serializer_parameters`) and the stateful operations of
`SerializerParameterField` (`lookup_serializer`, `lookup_parameter`,
`get_attribute`, the parameter validator).  Stateful methods are embedded as
state-passing functions returning the updated field next to an `Except` result;
raised Python exceptions (`ValidationError` kinds, `IndexError`, `KeyError`,
`SkipField`, the annotated re-raise) are the `Except` error values.
-/

/-- Decidable equality for `Except`, used to evaluate concrete runs. -/
instance {ε α : Type} [DecidableEq ε] [DecidableEq α] : DecidableEq (Except ε α) := fun x y =>
  match x, y with
  | .ok a, .ok b =>
      if h : a = b then isTrue (by rw [h])
      else isFalse (by intro hc; injection hc; exact h (by assumption))
  | .error a, .error b =>
      if h : a = b then isTrue (by rw [h])
      else isFalse (by intro hc; injection hc; exact h (by assumption))
  | .ok _, .error _ => isFalse (by intro hc; exact Except.noConfusion hc)
  | .error _, .ok _ => isFalse (by intro hc; exact Except.noConfusion hc)

/-- Combine two optional values, preferring the first (a reusable helper for
stating which binding wins in a dictionary merge). -/
def orO {α : Type} : Option α → Option α → Option α
  | some x, _ => some x
  | none, b => b

@[simp] theorem orO_none_left {α : Type} (b : Option α) : orO none b = b := rfl

@[simp] theorem orO_some {α : Type} (x : α) (b : Option α) : orO (some x) b = some x := rfl

@[simp] theorem orO_none_right {α : Type} (a : Option α) : orO a none = a := by
  cases a <;> rfl

theorem orO_assoc {α : Type} (a b c : Option α) : orO (orO a b) c = orO a (orO b c) := by
  cases a <;> rfl

namespace PyDict

variable {K V : Type} [DecidableEq K]

/-- Lookup in an insertion-ordered association list; models Python `d[k]`
(`none` standing for `KeyError`) and `k in d` (`isSome`). -/
def get : List (K × V) → K → Option V
  | [], _ => none
  | e :: rest, k => if e.1 = k then some e.2 else get rest k

/-- Python `d[k] = v`: replace the binding in place when the key is present,
append a new binding otherwise. -/
def setitem (d : List (K × V)) (k : K) (v : V) : List (K × V) :=
  if (get d k).isSome then d.map fun e => if e.1 = k then (k, v) else e
  else d ++ [(k, v)]

/-- Python `d.setdefault(k, v)`: insert only when the key is absent. -/
def setdefault (d : List (K × V)) (k : K) (v : V) : List (K × V) :=
  if (get d k).isSome then d else d ++ [(k, v)]

/-- Python `d.update(other)`: set every binding of `other`, in order. -/
def update (d other : List (K × V)) : List (K × V) :=
  other.foldl (fun acc e => setitem acc e.1 e.2) d

/-- Keys in insertion order. -/
def keys (d : List (K × V)) : List K := d.map Prod.fst

/-- Keys are pairwise distinct; every dictionary reachable by the embedded
operations satisfies this, as every real Python `dict` does. -/
def NoDupKeys (d : List (K × V)) : Prop := (keys d).Nodup

instance (d : List (K × V)) : Decidable (NoDupKeys d) := by
  unfold NoDupKeys; infer_instance

/-- Last binding of a key wins: result of scanning `l` left to right with a
partial extraction function, as a Python dict comprehension does. -/
def lastHit {α β : Type} (h : α → Option β) (l : List α) : Option β :=
  l.foldl (fun acc x => orO (h x) acc) none

theorem foldl_orO {α β : Type} (h : α → Option β) (l : List α) (a : Option β) :
    l.foldl (fun acc x => orO (h x) acc) a = orO (lastHit h l) a := by
  induction l generalizing a with
  | nil => simp [lastHit]
  | cons x rest ih =>
      show List.foldl _ (orO (h x) a) rest = orO (List.foldl _ (orO (h x) none) rest) a
      rw [ih (orO (h x) a), ih (orO (h x) none), orO_assoc, orO_none_right]

theorem lastHit_cons {α β : Type} (h : α → Option β) (x : α) (l : List α) :
    lastHit h (x :: l) = orO (lastHit h l) (h x) := by
  show List.foldl _ (orO (h x) none) l = _
  rw [foldl_orO, orO_none_right]

/-- Last binding for a key in an association list (what repeated `d[k] = v`
over the entries would leave for `k`). -/
def getLast (d : List (K × V)) (k : K) : Option V :=
  lastHit (fun e => if e.1 = k then some e.2 else none) d

theorem get_append (d1 d2 : List (K × V)) (k : K) :
    get (d1 ++ d2) k = orO (get d1 k) (get d2 k) := by
  induction d1 with
  | nil => simp [get]
  | cons e rest ih => by_cases h : e.1 = k <;> simp [get, h, ih]

theorem get_eq_none_iff (d : List (K × V)) (k : K) : get d k = none ↔ k ∉ keys d := by
  induction d with
  | nil => simp [get, keys]
  | cons e rest ih =>
      unfold keys at ih ⊢
      simp only [List.map_cons, List.mem_cons]
      by_cases h : e.1 = k
      · rw [get, if_pos h]
        constructor
        · intro hc; cases hc
        · intro hc; exact absurd (Or.inl h.symm) hc
      · rw [get, if_neg h, ih]
        constructor
        · intro hn hc
          rcases hc with hc | hc
          · exact h hc.symm
          · exact hn hc
        · intro hn hc
          exact hn (Or.inr hc)

theorem get_map_set (d : List (K × V)) (k k' : K) (v : V) :
    get (d.map fun e => if e.1 = k then (k, v) else e) k' =
      if k' = k then (get d k).map (fun _ => v) else get d k' := by
  induction d with
  | nil => by_cases h : k' = k <;> simp [get, h]
  | cons e rest ih =>
      by_cases h1 : e.1 = k
      · by_cases h2 : k' = k
        · subst h2; simp [get, h1, ih]
        · have h3 : ¬ (k = k') := fun hc => h2 hc.symm
          have h4 : ¬ (e.1 = k') := fun hc => h2 (h1 ▸ hc).symm
          simp [get, h1, h2, h3, h4, ih]
      · by_cases h2 : k' = k
        · subst h2
          simp [get, h1, ih]
        · by_cases h4 : e.1 = k' <;> simp [get, h1, h2, h4, ih]

theorem get_setitem (d : List (K × V)) (k k' : K) (v : V) :
    get (setitem d k v) k' = if k' = k then some v else get d k' := by
  unfold setitem
  by_cases hc : (get d k).isSome
  · rw [if_pos hc, get_map_set]
    by_cases h2 : k' = k
    · obtain ⟨w, hw⟩ := Option.isSome_iff_exists.mp hc
      simp [h2, hw]
    · simp [h2]
  · rw [if_neg hc, get_append]
    have hnone : get d k = none := Option.not_isSome_iff_eq_none.mp hc
    by_cases h2 : k' = k
    · subst h2; simp [hnone, get]
    · have h3 : ¬ (k = k') := fun hc2 => h2 hc2.symm
      cases hg : get d k' <;> simp [get, h2, h3, hg]

theorem get_setdefault (d : List (K × V)) (k k' : K) (v : V) :
    get (setdefault d k v) k' = if k' = k then orO (get d k) (some v) else get d k' := by
  unfold setdefault
  by_cases hc : (get d k).isSome
  · obtain ⟨w, hw⟩ := Option.isSome_iff_exists.mp hc
    by_cases h2 : k' = k <;> simp [hc, h2, hw]
  · have hnone : get d k = none := Option.not_isSome_iff_eq_none.mp hc
    rw [if_neg hc, get_append]
    by_cases h2 : k' = k
    · subst h2; simp [hnone, get]
    · have h3 : ¬ (k = k') := fun hc2 => h2 hc2.symm
      cases hg : get d k' <;> simp [get, h3, hg, h2]

theorem get_update (d other : List (K × V)) (k : K) :
    get (update d other) k = orO (getLast other k) (get d k) := by
  induction other generalizing d with
  | nil => simp [update, getLast, lastHit]
  | cons e rest ih =>
      show get (update (setitem d e.1 e.2) rest) k = _
      rw [ih, get_setitem]
      simp only [getLast]
      rw [lastHit_cons]
      by_cases h : e.1 = k
      · have h2 : k = e.1 := h.symm
        rw [if_pos h2, if_pos h]
        cases hl : lastHit (fun e => if e.1 = k then some e.2 else none) rest <;> simp [hl]
      · have h2 : ¬ (k = e.1) := fun hc => h hc.symm
        rw [if_neg h2, if_neg h]
        cases hl : lastHit (fun e => if e.1 = k then some e.2 else none) rest <;> simp [hl]

theorem getLast_eq_get (d : List (K × V)) (k : K) (h : NoDupKeys d) :
    getLast d k = get d k := by
  induction d with
  | nil => rfl
  | cons e rest ih =>
      have hk : e.1 ∉ keys rest := (List.nodup_cons.mp h).1
      have hrest : NoDupKeys rest := (List.nodup_cons.mp h).2
      rw [getLast, lastHit_cons]
      by_cases he : e.1 = k
      · have hnone : get rest k = none := (get_eq_none_iff rest k).mpr (he ▸ hk)
        rw [show lastHit (fun e => if e.1 = k then some e.2 else none) rest = getLast rest k from rfl,
          ih hrest, hnone]
        simp [get, he]
      · rw [show lastHit (fun e => if e.1 = k then some e.2 else none) rest = getLast rest k from rfl,
          ih hrest]
        simp [get, he]

theorem keys_map_set (d : List (K × V)) (k : K) (v : V) :
    keys (d.map fun e => if e.1 = k then (k, v) else e) = keys d := by
  induction d with
  | nil => rfl
  | cons e rest ih =>
      unfold keys at ih ⊢
      simp only [List.map_cons]
      rw [ih]
      by_cases h : e.1 = k
      · rw [if_pos h]
        show k :: _ = e.1 :: _
        rw [h]
      · rw [if_neg h]

theorem nodup_setitem (d : List (K × V)) (k : K) (v : V) (h : NoDupKeys d) :
    NoDupKeys (setitem d k v) := by
  unfold setitem
  by_cases hc : (get d k).isSome
  · rw [if_pos hc]
    unfold NoDupKeys
    rw [keys_map_set]
    exact h
  · rw [if_neg hc]
    have hk : k ∉ keys d :=
      (get_eq_none_iff d k).mp (Option.not_isSome_iff_eq_none.mp hc)
    unfold NoDupKeys keys at h ⊢
    rw [List.map_append]
    simp only [List.map_cons, List.map_nil]
    rw [List.nodup_append]
    refine ⟨h, List.nodup_singleton k, ?_⟩
    intro a ha hb
    rw [List.mem_singleton] at hb
    exact hk (hb ▸ ha)

theorem nodup_setdefault (d : List (K × V)) (k : K) (v : V) (h : NoDupKeys d) :
    NoDupKeys (setdefault d k v) := by
  unfold setdefault
  by_cases hc : (get d k).isSome
  · rw [if_pos hc]; exact h
  · rw [if_neg hc]
    have hk : k ∉ keys d :=
      (get_eq_none_iff d k).mp (Option.not_isSome_iff_eq_none.mp hc)
    unfold NoDupKeys keys at h ⊢
    rw [List.map_append]
    simp only [List.map_cons, List.map_nil]
    rw [List.nodup_append]
    refine ⟨h, List.nodup_singleton k, ?_⟩
    intro a ha hb
    rw [List.mem_singleton] at hb
    exact hk (hb ▸ ha)

theorem nodup_update (d other : List (K × V)) (h : NoDupKeys d) :
    NoDupKeys (update d other) := by
  induction other generalizing d with
  | nil => exact h
  | cons e rest ih =>
      show NoDupKeys (update (setitem d e.1 e.2) rest)
      exact ih _ (nodup_setitem d e.1 e.2 h)

theorem mem_of_get_some {d : List (K × V)} {k : K} {v : V} (h : get d k = some v) :
    (k, v) ∈ d := by
  induction d with
  | nil => exact absurd h (by simp [get])
  | cons e rest ih =>
      by_cases he : e.1 = k
      · rw [get, if_pos he] at h
        injection h with h
        have heq : (k, v) = e := by
          cases e with
          | mk a b =>
              cases he
              cases h
              rfl
        exact List.mem_cons.mpr (Or.inl heq)
      · rw [get, if_neg he] at h
        exact List.mem_cons_of_mem e (ih h)

theorem get_of_mem_nodup {d : List (K × V)} {k : K} {v : V}
    (hnd : NoDupKeys d) (hm : (k, v) ∈ d) : get d k = some v := by
  induction d with
  | nil => cases hm
  | cons e rest ih =>
      have hk : e.1 ∉ keys rest := (List.nodup_cons.mp hnd).1
      have hrest : NoDupKeys rest := (List.nodup_cons.mp hnd).2
      rcases List.mem_cons.mp hm with heq | hmem
      · rw [← heq]
        simp [get]
      · have hkey : k ∈ keys rest := by
          unfold keys
          exact List.mem_map_of_mem Prod.fst hmem
        have hne : e.1 ≠ k := fun hc => hk (hc ▸ hkey)
        rw [get, if_neg hne]
        exact ih hrest hmem

end PyDict

/-- Django model class as seen by the embedded code: an identity, the
`_meta.verbose_name` read at line 56, and `__name__` (used only for diagnostic
messages). -/
structure ModelType where
  mid : Nat
  verbose_name : String
  className : String
deriving DecidableEq, Repr

/-- DRF serializer instance: its Python class (`styp`, what `type(serializer)`
returns), its object identity `sid`, and the `Meta` attributes that
`get_resource_items` reads (`Meta.model`, `Meta.parameter`). -/
structure Serializer where
  styp : Nat
  sid : Nat
  metaModel : Option ModelType := none
  metaParameter : Option String := none
deriving DecidableEq, Repr

/-- Result of calling `get_queryset()` on a viewset (line 40): the call can
raise `AssertionError` (tolerated) or return a queryset exposing its model. -/
inductive QuerysetResult where
  | assertionError
  | queryset (model : ModelType)
deriving DecidableEq, Repr

/-- Instantiated viewset exposing `get_serializer()`; `get_queryset` is `none`
when the attribute is absent (`hasattr` check at line 38). -/
structure ViewsetInstance where
  serializer : Serializer
  get_queryset : Option QuerysetResult
deriving DecidableEq, Repr

/-- Possible `instance` arguments of `get_resource_items`: a model instance, an
object with `get_serializer` (a viewset), or anything else. -/
inductive RIInstance where
  | modelInstance (m : ModelType)
  | viewset (v : ViewsetInstance)
  | plain
deriving DecidableEq, Repr

/-- Character class `[^/?]` of `url_parameter_re`. -/
def urlNameChar (c : Char) : Bool := !(c == '/' || c == '?')

/-- Anchored match of `url_parameter_re = re.compile(r'\^([^/?]+)/\$')` against
a pattern string, returning capture group 1.  `re.match` anchors at the start
only, so trailing characters after the literal `$` are permitted; the capture
is the maximal nonempty run of non-`/`, non-`?` characters after a literal
`^`, followed by `/` and a literal `$`. -/
def urlMatch (s : String) : Option String :=
  match s.toList with
  | '^' :: rest =>
      let w := rest.takeWhile urlNameChar
      match rest.dropWhile urlNameChar with
      | '/' :: '$' :: _ => if w.isEmpty then none else some (String.mk w)
      | _ => none
  | _ => none

/-- Lines 61–62: apply the configured inflectors left to right, each receiving
the previous one's output. -/
def applyInflectors (inflectors : List (String → String)) (s : String) : String :=
  inflectors.foldl (fun acc f => f acc) s

/-- Lines 30–48 of `get_resource_items`: the initial `(parameter, model,
serializer)` before any name derivation.  For a viewset, `model` is
`Meta.model` unless a successful `get_queryset()` overrides it, and
`parameter` is the explicit `Meta.parameter` when declared. -/
def initialResourceItems : RIInstance → Option String × Option ModelType × Option Serializer
  | .modelInstance m => (none, some m, none)
  | .viewset v =>
      let serializer := v.serializer
      let model :=
        match v.get_queryset with
        | some (.queryset qs) => some qs
        | some .assertionError => serializer.metaModel
        | none => serializer.metaModel
      (serializer.metaParameter, model, some serializer)
  | .plain => (none, none, none)

/-- Lines 50–56: derive the uninflected name.  The URL pattern is consulted
only when one was supplied; the model's `verbose_name` only when no pattern
was supplied at all (`pattern is None`). -/
def uninflectedName (parameter : Option String) (pattern : Option String)
    (model : Option ModelType) : Option String :=
  match parameter with
  | some _ => none
  | none =>
      match pattern with
      | some pat => urlMatch pat
      | none => model.map ModelType.verbose_name

/-- Shallow embedding of `get_resource_items(instance, pattern, url_parameter_re,
inflectors)`; `pattern` carries the route's `regex.pattern` string when a
pattern object was passed. -/
def get_resource_items (inst : RIInstance) (pattern : Option String)
    (inflectors : List (String → String)) :
    Option String × Option ModelType × Option Serializer :=
  let init := initialResourceItems inst
  let uninflected := uninflectedName init.1 pattern init.2.1
  let parameter :=
    match init.1, uninflected with
    | none, some u => some (applyInflectors inflectors u)
    | p, _ => p
  (parameter, init.2.1, init.2.2)

mutual
/-- Route tree node: the pattern's `regex.pattern` string, the optional
callback class exposing `get_serializer` (already instantiated with
`request=None, format_kwarg=None`), and the nested `url_patterns`. -/
inductive RoutePattern where
  | node (regex : String) (callback : Option ViewsetInstance) (children : RoutePatterns)

/-- List of nested route patterns, in URLconf order. -/
inductive RoutePatterns where
  | nil
  | cons (head : RoutePattern) (tail : RoutePatterns)
end

/-- Accumulated maps of `lookup_serializer_parameters`. -/
structure SerializerMaps where
  specific_serializers : List (String × Serializer)
  specific_serializers_by_type : List (ModelType × Serializer)
deriving DecidableEq, Repr

/-- Lines 72–85 of `lookup_serializer_parameters`: the maps built from the
pattern's own callback (when it exposes `get_serializer`) by `setdefault`
before the recursion over `url_patterns`. -/
def ownMaps (inflectors : List (String → String)) (regex : String)
    (callback : Option ViewsetInstance) : SerializerMaps :=
  match callback with
  | some viewset =>
      let items := get_resource_items (.viewset viewset) (some regex) inflectors
      match items.2.2 with
      | some serializer =>
          { specific_serializers :=
              match items.1 with
              | some parameter => PyDict.setdefault [] parameter serializer
              | none => []
            specific_serializers_by_type :=
              match items.2.1 with
              | some model => PyDict.setdefault [] model serializer
              | none => [] }
      | none => ⟨[], []⟩
  | none => ⟨[], []⟩

mutual
/-- Shallow embedding of `lookup_serializer_parameters(field, pattern,
url_parameter_re, inflectors)` (lines 67–101): build this level's maps from the
pattern's own callback by `setdefault`, then merge the recursion over
`url_patterns`. -/
def lookup_serializer_parameters (inflectors : List (String → String)) :
    RoutePattern → SerializerMaps
  | .node regex callback children =>
      mergeChildren inflectors (ownMaps inflectors regex callback) children

/-- Lines 87–98: for each nested pattern, recurse, then
`recursed.update(accumulated)` — the accumulated bindings win on collision —
and carry the result to the next sibling. -/
def mergeChildren (inflectors : List (String → String)) (acc : SerializerMaps) :
    RoutePatterns → SerializerMaps
  | .nil => acc
  | .cons child rest =>
      let recursed := lookup_serializer_parameters inflectors child
      mergeChildren inflectors
        { specific_serializers :=
            PyDict.update recursed.specific_serializers acc.specific_serializers
          specific_serializers_by_type :=
            PyDict.update recursed.specific_serializers_by_type
              acc.specific_serializers_by_type }
        rest
end

/-- Resource item a node's own callback contributes (at most one). -/
def ownEntries (inflectors : List (String → String)) (regex : String)
    (callback : Option ViewsetInstance) :
    List (Option String × Option ModelType × Option Serializer) :=
  match callback with
  | some viewset => [get_resource_items (.viewset viewset) (some regex) inflectors]
  | none => []

mutual
/-- Resource items of every route entry, in the deterministic pre-order
traversal the resolver performs (a node's own callback before its children,
children in URLconf order). -/
def resourceEntries (inflectors : List (String → String)) :
    RoutePattern → List (Option String × Option ModelType × Option Serializer)
  | .node regex callback children =>
      ownEntries inflectors regex callback ++ resourceEntriesList inflectors children

/-- Pre-order resource items of a pattern list. -/
def resourceEntriesList (inflectors : List (String → String)) :
    RoutePatterns → List (Option String × Option ModelType × Option Serializer)
  | .nil => []
  | .cons child rest =>
      resourceEntries inflectors child ++ resourceEntriesList inflectors rest
end

/-- Setdefault-style insertion of one discovered resource item into the maps
(first writer per key wins), the per-item step of the specification's merge
description. -/
def applyResourceItem (m : SerializerMaps)
    (item : Option String × Option ModelType × Option Serializer) : SerializerMaps :=
  match item.2.2 with
  | some serializer =>
      { specific_serializers :=
          match item.1 with
          | some parameter => PyDict.setdefault m.specific_serializers parameter serializer
          | none => m.specific_serializers
        specific_serializers_by_type :=
          match item.2.1 with
          | some model => PyDict.setdefault m.specific_serializers_by_type model serializer
          | none => m.specific_serializers_by_type }
  | none => m

/-- Merged maps owned by a `SerializerParameterField` after
`merge_serializer_parameters` ran. -/
structure MergedMaps where
  specific_serializers : List (String × Serializer)
  specific_serializers_by_type : List (ModelType × Serializer)
  parameters : List (Nat × String)
deriving DecidableEq, Repr

/-- Shallow embedding of `SerializerParameterField.merge_serializer_parameters`
(lines 203–216): `root` stands for `urls.get_resolver(self.urlconf)`; the
explicitly supplied maps are written over the discovered ones, and
`parameters` is the dict comprehension `{type(serializer): parameter for
parameter, serializer in specific_serializers.items()}`. -/
def merge_serializer_parameters (root : RoutePattern)
    (inflectors : List (String → String))
    (explicit_ss : List (String × Serializer))
    (explicit_sst : List (ModelType × Serializer)) : MergedMaps :=
  let discovered := lookup_serializer_parameters inflectors root
  let ss := PyDict.update discovered.specific_serializers explicit_ss
  let sst := PyDict.update discovered.specific_serializers_by_type explicit_sst
  { specific_serializers := ss
    specific_serializers_by_type := sst
    parameters := ss.foldl (fun acc e => PyDict.setitem acc e.2.styp e.1) [] }

/-- The `child` slot of a bound composite serializer: the initial declared
child, a pushed specific serializer, or the empty `serializers.Serializer`
pushed by the optional-field fallback of `get_attribute` (line 320). -/
inductive ChildSlot where
  | initial
  | specific (s : Serializer)
  | empty
deriving DecidableEq, Repr

/-- Bound composite serializer (an element of `parameter_serializers`).
`view_serializer` — Modelled from the spec: the `composite` module holding
`CompositeSerializer.get_view_serializer` is not under `src/`; per §4.2 the
call returns "a view-supplied schema already resolved via an external lookup
(... out-of-band ...)", if any, so it is embedded as an opaque optional
serializer carried by the composite. -/
structure ParameterizedGenericSerializer where
  view_serializer : Option Serializer
  child : ChildSlot := .initial
deriving DecidableEq, Repr

/-- One of the two exception kinds that `get_attribute`'s `except (KeyError,
AttributeError)` clause catches, with its `str(exc)` text. -/
structure AttrExc where
  isKeyError : Bool
  msg : String
deriving DecidableEq, Repr

/-- Python name of the exception's type (`type(exc).__name__`). -/
def AttrExc.typeName (e : AttrExc) : String :=
  if e.isKeyError then "KeyError" else "AttributeError"

/-- Outcome of the external `rest_framework.fields.get_attribute(instance,
self.source_attrs, ...)` call: the extracted discriminator value, or a
missing-attribute/key exception. -/
inductive AttrResult where
  | ok (value : String)
  | exc (e : AttrExc)
deriving DecidableEq, Repr

/-- Instance argument of `lookup_parameter`/`get_attribute`: either a
validated-data wrapper (`serializer_helpers.ReturnDict`, carrying its
originating serializer) or an ordinary object whose Python class is a model
type.  Each carries the outcome that attribute extraction along the field's
source path would produce for it. -/
inductive PyInstance where
  | returnDict (serializer : Serializer) (attr : AttrResult)
  | obj (model : ModelType) (attr : AttrResult)
deriving DecidableEq, Repr

/-- Extraction outcome of `fields.get_attribute` for this instance. -/
def PyInstance.attrResult : PyInstance → AttrResult
  | .returnDict _ a => a
  | .obj _ a => a

/-- Python `instance.__class__.__name__`, used in the diagnostic message. -/
def PyInstance.className : PyInstance → String
  | .returnDict _ _ => "CloneReturnDict"
  | .obj m _ => m.className

/-- Exceptions raised by the embedded field operations: the four
`default_error_messages` validation failures (`unknown` = UnknownParameter,
`serializerError` = the `'serializer'` key / SerializerNotRegistered,
`mismatch` = ParameterMismatch, `instanceError` = the `'instance'` key /
InstanceNotRegistered), the unstructured `IndexError` of
`self.parameter_serializers[0]` and `KeyError` of `self.parameters[type(child)]`,
`SkipField`, and the annotated `raise type(exc)(msg)` of `get_attribute`. -/
inductive FieldError where
  | unknown (parameter : String)
  | serializerError (value : Serializer)
  | mismatch (parameter by_type : String)
  | instanceError (inst : PyInstance)
  | keyError
  | indexError
  | skipField
  | raisedExc (excType : String) (msg : String)
deriving DecidableEq, Repr

/-- Whether the raised error is a `rest_framework.serializers.ValidationError`
(what `self.fail(...)` raises), i.e. caught by `except
serializers.ValidationError` in `get_attribute`. -/
def FieldError.isValidationError : FieldError → Bool
  | .unknown _ => true
  | .serializerError _ => true
  | .mismatch _ _ => true
  | .instanceError _ => true
  | _ => false

/-- State of a `SerializerParameterField` once its cached maps are populated:
the three merged maps, the bound composites (`parameter_serializers`, in
binding order), and the DRF field configuration read by `get_attribute`
(`default`, `required`) plus `skip` read by the validator.  `field_name` and
`parent_class` feed the diagnostic message. -/
structure SerializerParameterField where
  specific_serializers : List (String × Serializer)
  specific_serializers_by_type : List (ModelType × Serializer)
  parameters : List (Nat × String)
  parameter_serializers : List ParameterizedGenericSerializer
  default : Option String := none
  required : Bool := true
  skip : Bool := true
  field_name : String := "type"
  parent_class : String := "ParameterizedGenericSerializer"
deriving DecidableEq, Repr

/-- The push loop `for parameter_serializer in self.parameter_serializers:
parameter_serializer.child = child`. -/
def pushChild (f : SerializerParameterField) (c : ChildSlot) : SerializerParameterField :=
  { f with parameter_serializers := f.parameter_serializers.map fun ps => { ps with child := c } }

/-- Argument of `bind_parameter_field`: a `ParameterizedGenericSerializer` or
any other serializer. -/
inductive BindTarget where
  | generic (g : ParameterizedGenericSerializer)
  | other
deriving DecidableEq, Repr

/-- Shallow embedding of `bind_parameter_field` (lines 186–194): only
`ParameterizedGenericSerializer` instances are appended to
`parameter_serializers` (the `clone_meta` side channel lives in the absent
`composite` module and carries no behaviour used by the embedded operations). -/
def bind_parameter_field (f : SerializerParameterField) : BindTarget → SerializerParameterField
  | .generic g => { f with parameter_serializers := f.parameter_serializers ++ [g] }
  | .other => f

/-- Shallow embedding of `SerializerParameterField.lookup_serializer`
(lines 245–267), as a state-passing function: the updated field is returned
next to the result (`Except.error` standing for a raised exception). -/
def lookup_serializer (f : SerializerParameterField) (parameter : String) :
    SerializerParameterField × Except FieldError Serializer :=
  match PyDict.get f.specific_serializers parameter with
  | none => (f, .error (.unknown parameter))
  | some registered =>
      match f.parameter_serializers with
      | [] => (f, .error .indexError)
      | first :: _ =>
          match first.view_serializer with
          | some child =>
              match PyDict.get f.parameters child.styp with
              | none => (f, .error (.serializerError child))
              | some by_type =>
                  if parameter ≠ by_type then (f, .error (.mismatch parameter by_type))
                  else (pushChild f (.specific child), .ok child)
          | none => (pushChild f (.specific registered), .ok registered)

/-- Shallow embedding of `SerializerParameterField.lookup_parameter`
(lines 269–295). -/
def lookup_parameter (f : SerializerParameterField) (inst : PyInstance) :
    SerializerParameterField × Except FieldError String :=
  let childResult : Except FieldError Serializer :=
    match inst with
    | .returnDict serializer _ =>
        if (PyDict.get f.parameters serializer.styp).isNone then
          .error (.serializerError serializer)
        else .ok serializer
    | .obj model _ =>
        match PyDict.get f.specific_serializers_by_type model with
        | none => .error (.instanceError inst)
        | some child => .ok child
  match childResult with
  | .error e => (f, .error e)
  | .ok child =>
      match PyDict.get f.parameters child.styp with
      | none => (f, .error .keyError)
      | some parameter =>
          match f.parameter_serializers with
          | [] => (f, .error .indexError)
          | first :: _ =>
              (pushChild f (.specific (first.view_serializer.getD child)), .ok parameter)

/-- Message of the annotated re-raise in `get_attribute` (lines 324–336),
assembled exactly as the source format string does. -/
def annotatedMessage (f : SerializerParameterField) (inst : PyInstance)
    (exc : AttrExc) : String :=
  "Got " ++ exc.typeName ++
  " when attempting to get a value for field `" ++ f.field_name ++
  "` on serializer `" ++ f.parent_class ++
  "`.\nThe serializer field might be named incorrectly and not match " ++
  "any attribute or key on the `" ++ inst.className ++
  "` instance.\nOriginal exception text was: " ++ exc.msg ++ "."

/-- Shallow embedding of `SerializerParameterField.get_attribute`
(lines 297–342).  The external `fields.get_attribute` call is modelled by the
instance's stored extraction outcome; only `KeyError`/`AttributeError`
outcomes trigger the fallback chain, matching the `except` clause. -/
def get_attribute (f : SerializerParameterField) (inst : PyInstance) :
    SerializerParameterField × Except FieldError String :=
  match inst.attrResult with
  | .ok parameter =>
      let r := lookup_serializer f parameter
      (r.1, r.2.map fun _ => parameter)
  | .exc exc =>
      let r := lookup_parameter f inst
      match r.2 with
      | .ok parameter => (r.1, .ok parameter)
      | .error e =>
          if e.isValidationError then
            match f.default with
            | some d =>
                let r2 := lookup_serializer f d
                (r2.1, r2.2.map fun _ => d)
            | none =>
                if !f.required then (pushChild f .empty, .error .skipField)
                else (f, .error (.raisedExc exc.typeName (annotatedMessage f inst exc)))
          else (r.1, .error e)

/-- Shallow embedding of `SerializerParameterValidator.__call__` (lines
115–123): resolve the specific serializer for the incoming parameter value,
then omit the field (`SkipField`) when `skip` is set. -/
def validatorCall (f : SerializerParameterField) (value : String) :
    SerializerParameterField × Except FieldError String :=
  let r := lookup_serializer f value
  match r.2 with
  | .error e => (r.1, .error e)
  | .ok _ => if r.1.skip then (r.1, .error .skipField) else (r.1, .ok value)

theorem pushChild_child_eq (f : SerializerParameterField) (c : ChildSlot) :
    ∀ ps ∈ (pushChild f c).parameter_serializers, ps.child = c := by
  intro ps hm
  simp only [pushChild, List.mem_map] at hm
  obtain ⟨q, _, rfl⟩ := hm
  rfl

/-- Concrete serializer registered under `"foo-type"` in the demonstration
field. -/
def fooSerializer : Serializer := { styp := 1, sid := 1 }

/-- Concrete bound composite with no view-supplied serializer. -/
def demoComposite : ParameterizedGenericSerializer := { view_serializer := none }

/-- Concrete model type for demonstration instances. -/
def demoModel : ModelType := { mid := 5, verbose_name := "demo", className := "Demo" }

/-- Concrete parameter field: one registered parameter, one bound composite. -/
def demoField : SerializerParameterField :=
  { specific_serializers := [("foo-type", fooSerializer)]
    specific_serializers_by_type := [(demoModel, fooSerializer)]
    parameters := [(1, "foo-type")]
    parameter_serializers := [demoComposite] }

/-- Concrete validated-data wrapper produced by `fooSerializer`. -/
def wrapperInstance : PyInstance := .returnDict fooSerializer (.exc ⟨false, "missing"⟩)

/-- Concrete ordinary object whose attribute extraction yields `"foo-type"`. -/
def demoObj : PyInstance := .obj demoModel (.ok "foo-type")

/-- C1: for every call `lookup_serializer(parameter)` with `parameter` a key of
the merged `specific_serializers` map, if the first bound composite has a
view-supplied serializer, the call fails with the `SerializerNotRegistered`
error when that serializer's type has no `parameters` entry and with the
`ParameterMismatch` error when the implied parameter differs from the
requested one; on success the resolved serializer — the view-supplied one when
present, otherwise `specific_serializers[parameter]` — is pushed into the
child slot of every bound composite and returned. -/
theorem spec_C1 (f : SerializerParameterField) (p : String) (s : Serializer)
    (first : ParameterizedGenericSerializer) (rest : List ParameterizedGenericSerializer)
    (hreg : PyDict.get f.specific_serializers p = some s)
    (hbound : f.parameter_serializers = first :: rest) :
    (first.view_serializer = none →
      lookup_serializer f p = (pushChild f (.specific s), .ok s)) ∧
    (∀ v, first.view_serializer = some v →
      (PyDict.get f.parameters v.styp = none →
        lookup_serializer f p = (f, .error (.serializerError v))) ∧
      (∀ bt, PyDict.get f.parameters v.styp = some bt → p ≠ bt →
        lookup_serializer f p = (f, .error (.mismatch p bt))) ∧
      (PyDict.get f.parameters v.styp = some p →
        lookup_serializer f p = (pushChild f (.specific v), .ok v))) ∧
    (∀ c, (lookup_serializer f p).2 = .ok c →
      ∀ ps ∈ (lookup_serializer f p).1.parameter_serializers, ps.child = .specific c) := by
  refine ⟨?_, ?_, ?_⟩
  · intro hview
    simp [lookup_serializer, hreg, hbound, hview]
  · intro v hview
    refine ⟨?_, ?_, ?_⟩
    · intro hnone
      simp [lookup_serializer, hreg, hbound, hview, hnone]
    · intro bt hbt hne
      simp [lookup_serializer, hreg, hbound, hview, hbt, hne]
    · intro hp
      simp [lookup_serializer, hreg, hbound, hview, hp]
  · intro c hok ps hps
    cases hview : first.view_serializer with
    | none =>
        have heq : lookup_serializer f p = (pushChild f (.specific s), .ok s) := by
          simp [lookup_serializer, hreg, hbound, hview]
        rw [heq] at hok hps
        simp only [Except.ok.injEq] at hok
        subst hok
        exact pushChild_child_eq f _ ps hps
    | some v =>
        cases hbt : PyDict.get f.parameters v.styp with
        | none =>
            have heq : lookup_serializer f p = (f, .error (.serializerError v)) := by
              simp [lookup_serializer, hreg, hbound, hview, hbt]
            rw [heq] at hok
            cases hok
        | some bt =>
            by_cases hpb : p = bt
            · subst hpb
              have heq : lookup_serializer f p = (pushChild f (.specific v), .ok v) := by
                simp [lookup_serializer, hreg, hbound, hview, hbt]
              rw [heq] at hok hps
              simp only [Except.ok.injEq] at hok
              subst hok
              exact pushChild_child_eq f _ ps hps
            · have heq : lookup_serializer f p = (f, .error (.mismatch p bt)) := by
                simp [lookup_serializer, hreg, hbound, hview, hbt, hpb]
              rw [heq] at hok
              cases hok

theorem spec_C1_witness :
    lookup_serializer demoField "foo-type" =
      (pushChild demoField (.specific fooSerializer), .ok fooSerializer) :=
  (spec_C1 demoField "foo-type" fooSerializer demoComposite [] (by decide) rfl).1 rfl

/-- C2: `lookup_serializer(parameter)` fails with the `UnknownParameter`
validation error exactly when `parameter` is not a key of the merged
`specific_serializers` map; concretely, looking up `"not-a-real-type"` during
deserialization (via the parameter validator) against a field whose map has
only the key `"foo-type"` fails with `UnknownParameter`. -/
theorem spec_C2 (f : SerializerParameterField) (p : String) :
    ((lookup_serializer f p).2 = .error (.unknown p) ↔
      PyDict.get f.specific_serializers p = none) ∧
    (validatorCall demoField "not-a-real-type").2 =
      .error (.unknown "not-a-real-type") := by
  constructor
  · cases hreg : PyDict.get f.specific_serializers p with
    | none =>
        simp [lookup_serializer, hreg]
    | some s =>
        constructor
        · intro h
          exfalso
          rcases hps : f.parameter_serializers with _ | ⟨first, rest⟩
          · simp [lookup_serializer, hreg, hps] at h
          · rcases hview : first.view_serializer with _ | v
            · simp [lookup_serializer, hreg, hps, hview] at h
            · rcases hbt : PyDict.get f.parameters v.styp with _ | bt
              · simp [lookup_serializer, hreg, hps, hview, hbt] at h
              · by_cases hpb : p = bt
                · subst hpb
                  simp [lookup_serializer, hreg, hps, hview, hbt] at h
                · simp [lookup_serializer, hreg, hps, hview, hbt, hpb] at h
        · intro h
          cases h
  · decide

theorem spec_C2_witness :
    (lookup_serializer demoField "not-a-real-type").2 =
      .error (.unknown "not-a-real-type") :=
  (spec_C2 demoField "not-a-real-type").1.mpr (by decide)

/-- C3: `lookup_parameter(instance)` uses the wrapper's originating serializer
directly for validated-data wrappers (failing with `SerializerNotRegistered`
when its type has no `parameters` entry) and otherwise infers the serializer
from `type(instance)` via `specific_serializers_by_type` (failing with
`InstanceNotRegistered` when unmapped); on success it returns the
`parameters`-map entry for the chosen serializer's type, and a view-supplied
serializer replaces the chosen serializer only in the value pushed into the
bound composites' child slots, never in the returned parameter. -/
theorem spec_C3 (f : SerializerParameterField) (inst : PyInstance)
    (first : ParameterizedGenericSerializer) (rest : List ParameterizedGenericSerializer)
    (hbound : f.parameter_serializers = first :: rest) :
    (∀ ser a, inst = .returnDict ser a →
      (PyDict.get f.parameters ser.styp = none →
        lookup_parameter f inst = (f, .error (.serializerError ser))) ∧
      (∀ p, PyDict.get f.parameters ser.styp = some p →
        lookup_parameter f inst =
          (pushChild f (.specific (first.view_serializer.getD ser)), .ok p))) ∧
    (∀ m a, inst = .obj m a →
      (PyDict.get f.specific_serializers_by_type m = none →
        lookup_parameter f inst = (f, .error (.instanceError inst))) ∧
      (∀ c p, PyDict.get f.specific_serializers_by_type m = some c →
        PyDict.get f.parameters c.styp = some p →
        lookup_parameter f inst =
          (pushChild f (.specific (first.view_serializer.getD c)), .ok p))) := by
  constructor
  · rintro ser a rfl
    constructor
    · intro hnone
      simp [lookup_parameter, hnone]
    · intro p hp
      simp [lookup_parameter, hp, hbound]
  · rintro m a rfl
    constructor
    · intro hnone
      simp [lookup_parameter, hnone]
    · intro c p hm hp
      simp [lookup_parameter, hm, hp, hbound]

theorem spec_C3_witness :
    lookup_parameter demoField wrapperInstance =
      (pushChild demoField (.specific fooSerializer), .ok "foo-type") :=
  ((spec_C3 demoField wrapperInstance demoComposite [] rfl).1 fooSerializer
    (.exc ⟨false, "missing"⟩) rfl).2 "foo-type" (by decide)

/-- C4: `get_attribute(instance)` returns the extracted discriminator value
after resolving and pushing via `lookup_serializer` when extraction succeeds;
on a missing-attribute/key failure it falls back to `lookup_parameter`, then —
when that fails with a validation error — to a configured default (resolved
and pushed via `lookup_serializer`), then, for an optional field, pushes an
empty serializer into every bound composite and raises `SkipField`, and
otherwise re-raises an error of the original exception's type annotated with
the field name, owning serializer class, instance type and original message. -/
theorem spec_C4 (f : SerializerParameterField) (inst : PyInstance) :
    (∀ p, inst.attrResult = .ok p →
      get_attribute f inst =
        ((lookup_serializer f p).1, (lookup_serializer f p).2.map fun _ => p)) ∧
    (∀ exc f' p, inst.attrResult = .exc exc → lookup_parameter f inst = (f', .ok p) →
      get_attribute f inst = (f', .ok p)) ∧
    (∀ exc e d, inst.attrResult = .exc exc →
      (lookup_parameter f inst).2 = .error e → e.isValidationError = true →
      f.default = some d →
      get_attribute f inst =
        ((lookup_serializer f d).1, (lookup_serializer f d).2.map fun _ => d)) ∧
    (∀ exc e, inst.attrResult = .exc exc →
      (lookup_parameter f inst).2 = .error e → e.isValidationError = true →
      f.default = none → f.required = false →
      get_attribute f inst = (pushChild f .empty, .error .skipField)) ∧
    (∀ exc e, inst.attrResult = .exc exc →
      (lookup_parameter f inst).2 = .error e → e.isValidationError = true →
      f.default = none → f.required = true →
      get_attribute f inst =
        (f, .error (.raisedExc exc.typeName (annotatedMessage f inst exc)))) := by
  refine ⟨?_, ?_, ?_, ?_, ?_⟩
  · intro p hattr
    simp [get_attribute, hattr]
  · intro exc f' p hattr hlp
    simp [get_attribute, hattr, hlp]
  · intro exc e d hattr hlp hval hd
    simp [get_attribute, hattr, hlp, hval, hd]
  · intro exc e hattr hlp hval hd hreq
    simp [get_attribute, hattr, hlp, hval, hd, hreq]
  · intro exc e hattr hlp hval hd hreq
    simp [get_attribute, hattr, hlp, hval, hd, hreq]

theorem spec_C4_witness :
    get_attribute demoField demoObj =
      (pushChild demoField (.specific fooSerializer), .ok "foo-type") := by
  have h := (spec_C4 demoField demoObj).1 "foo-type" rfl
  rw [h]
  decide

/-- Concrete unbound field whose `specific_serializers_by_type` entry has no
inverse `parameters` entry. -/
def orphanSerializer : Serializer := { styp := 3, sid := 3 }

/-- Concrete model type mapped to `orphanSerializer`. -/
def orphanModel : ModelType := { mid := 9, verbose_name := "orphan", className := "Orphan" }

/-- Concrete field with no bound composite and an instance-type entry whose
serializer type is missing from `parameters`. -/
def unboundField : SerializerParameterField :=
  { specific_serializers := []
    specific_serializers_by_type := [(orphanModel, orphanSerializer)]
    parameters := []
    parameter_serializers := [] }

/-- Concrete field with a registered parameter but no bound composite. -/
def noCompositeField : SerializerParameterField :=
  { specific_serializers := [("foo-type", fooSerializer)]
    specific_serializers_by_type := []
    parameters := [(1, "foo-type")]
    parameter_serializers := [] }

/-- C10 (amended): with no bound composite, `lookup_serializer` on a registered
parameter raises `IndexError`, and `lookup_parameter` raises `IndexError` for a
wrapper whose serializer type has a `parameters` entry and for an instance
whose mapped serializer's type has a `parameters` entry; when that
`parameters` entry is missing, `lookup_parameter` raises `KeyError` at
`self.parameters[type(child)]` before reaching the `[0]` access. -/
theorem spec_C10 (f : SerializerParameterField)
    (hbound : f.parameter_serializers = []) :
    (∀ p s, PyDict.get f.specific_serializers p = some s →
      lookup_serializer f p = (f, .error .indexError)) ∧
    (∀ ser a pr, PyDict.get f.parameters ser.styp = some pr →
      lookup_parameter f (.returnDict ser a) = (f, .error .indexError)) ∧
    (∀ m a c pr, PyDict.get f.specific_serializers_by_type m = some c →
      PyDict.get f.parameters c.styp = some pr →
      lookup_parameter f (.obj m a) = (f, .error .indexError)) := by
  refine ⟨?_, ?_, ?_⟩
  · intro p s hreg
    simp [lookup_serializer, hreg, hbound]
  · intro ser a pr hp
    simp [lookup_parameter, hp, hbound]
  · intro m a c pr hm hp
    simp [lookup_parameter, hm, hp, hbound]

theorem spec_C10_witness :
    lookup_serializer noCompositeField "foo-type" =
      (noCompositeField, .error .indexError) :=
  (spec_C10 noCompositeField rfl).1 "foo-type" fooSerializer (by decide)

/-- C10 counterexample: `unboundField` has the instance's type registered in
`specific_serializers_by_type` and no bound composite, yet `lookup_parameter`
raises `KeyError`, not `IndexError`, because `self.parameters[type(child)]`
fails first. -/
theorem spec_C10_cex :
    PyDict.get unboundField.specific_serializers_by_type orphanModel =
      some orphanSerializer ∧
    unboundField.parameter_serializers = [] ∧
    (lookup_parameter unboundField (.obj orphanModel (.ok "x"))).2 ≠
      .error .indexError ∧
    (lookup_parameter unboundField (.obj orphanModel (.ok "x"))).2 =
      .error .keyError := by decide

/-- First hit of `h` over a list (first writer wins). -/
def firstHit {α β : Type} (h : α → Option β) : List α → Option β
  | [] => none
  | x :: l => orO (h x) (firstHit h l)

theorem firstHit_append {α β : Type} (h : α → Option β) (l1 l2 : List α) :
    firstHit h (l1 ++ l2) = orO (firstHit h l1) (firstHit h l2) := by
  induction l1 with
  | nil => simp [firstHit]
  | cons x rest ih => rw [List.cons_append, firstHit, firstHit, ih, orO_assoc]

/-- The `specific_serializers` binding one resource item contributes for key
`k` under setdefault-insertion. -/
def itemParamHit (k : String)
    (item : Option String × Option ModelType × Option Serializer) : Option Serializer :=
  match item.2.2, item.1 with
  | some serializer, some parameter => if parameter = k then some serializer else none
  | _, _ => none

/-- The `specific_serializers_by_type` binding one resource item contributes
for type `t` under setdefault-insertion. -/
def itemTypeHit (t : ModelType)
    (item : Option String × Option ModelType × Option Serializer) : Option Serializer :=
  match item.2.2, item.2.1 with
  | some serializer, some model => if model = t then some serializer else none
  | _, _ => none

theorem get_applyResourceItem_ss (m : SerializerMaps)
    (item : Option String × Option ModelType × Option Serializer) (k : String) :
    PyDict.get (applyResourceItem m item).specific_serializers k =
      orO (PyDict.get m.specific_serializers k) (itemParamHit k item) := by
  rcases item with ⟨pr, mo, se⟩
  rcases se with _ | s
  · simp [applyResourceItem, itemParamHit]
  · rcases pr with _ | parameter
    · simp [applyResourceItem, itemParamHit]
    · show PyDict.get (PyDict.setdefault m.specific_serializers parameter s) k = _
      rw [PyDict.get_setdefault]
      by_cases hk : k = parameter
      · subst hk
        simp [itemParamHit]
      · have hk2 : ¬ (parameter = k) := fun hc => hk hc.symm
        simp [itemParamHit, hk, hk2]

theorem get_applyResourceItem_sst (m : SerializerMaps)
    (item : Option String × Option ModelType × Option Serializer) (t : ModelType) :
    PyDict.get (applyResourceItem m item).specific_serializers_by_type t =
      orO (PyDict.get m.specific_serializers_by_type t) (itemTypeHit t item) := by
  rcases item with ⟨pr, mo, se⟩
  rcases se with _ | s
  · simp [applyResourceItem, itemTypeHit]
  · rcases mo with _ | model
    · simp [applyResourceItem, itemTypeHit]
    · show PyDict.get (PyDict.setdefault m.specific_serializers_by_type model s) t = _
      rw [PyDict.get_setdefault]
      by_cases hk : t = model
      · subst hk
        simp [itemTypeHit]
      · have hk2 : ¬ (model = t) := fun hc => hk hc.symm
        simp [itemTypeHit, hk, hk2]

theorem get_foldApply_ss (l : List (Option String × Option ModelType × Option Serializer))
    (m : SerializerMaps) (k : String) :
    PyDict.get ((l.foldl applyResourceItem m).specific_serializers) k =
      orO (PyDict.get m.specific_serializers k) (firstHit (itemParamHit k) l) := by
  induction l generalizing m with
  | nil => simp [firstHit]
  | cons it rest ih =>
      show PyDict.get
        ((rest.foldl applyResourceItem (applyResourceItem m it)).specific_serializers) k = _
      rw [ih, get_applyResourceItem_ss, orO_assoc]
      rfl

theorem get_foldApply_sst (l : List (Option String × Option ModelType × Option Serializer))
    (m : SerializerMaps) (t : ModelType) :
    PyDict.get ((l.foldl applyResourceItem m).specific_serializers_by_type) t =
      orO (PyDict.get m.specific_serializers_by_type t) (firstHit (itemTypeHit t) l) := by
  induction l generalizing m with
  | nil => simp [firstHit]
  | cons it rest ih =>
      show PyDict.get
        ((rest.foldl applyResourceItem (applyResourceItem m it)).specific_serializers_by_type) t = _
      rw [ih, get_applyResourceItem_sst, orO_assoc]
      rfl

theorem ownMaps_nodup (infl : List (String → String)) (regex : String)
    (cb : Option ViewsetInstance) :
    PyDict.NoDupKeys (ownMaps infl regex cb).specific_serializers ∧
    PyDict.NoDupKeys (ownMaps infl regex cb).specific_serializers_by_type := by
  have hnil : PyDict.NoDupKeys ([] : List (String × Serializer)) := List.nodup_nil
  have hnil2 : PyDict.NoDupKeys ([] : List (ModelType × Serializer)) := List.nodup_nil
  rcases cb with _ | viewset
  · exact ⟨hnil, hnil2⟩
  · simp only [ownMaps]
    rcases hi : (get_resource_items (.viewset viewset) (some regex) infl).2.2 with _ | s
    · simp only [hi]
      exact ⟨hnil, hnil2⟩
    · simp only [hi]
      constructor
      · rcases hp : (get_resource_items (.viewset viewset) (some regex) infl).1 with _ | pr
        · simp only [hp]
          exact hnil
        · simp only [hp]
          exact PyDict.nodup_setdefault [] pr s hnil
      · rcases hm : (get_resource_items (.viewset viewset) (some regex) infl).2.1 with _ | mo
        · simp only [hm]
          exact hnil2
        · simp only [hm]
          exact PyDict.nodup_setdefault [] mo s hnil2

theorem get_ownMaps_ss (infl : List (String → String)) (regex : String)
    (cb : Option ViewsetInstance) (k : String) :
    PyDict.get (ownMaps infl regex cb).specific_serializers k =
      firstHit (itemParamHit k) (ownEntries infl regex cb) := by
  rcases cb with _ | viewset
  · rfl
  · simp only [ownMaps, ownEntries]
    rcases hi : (get_resource_items (.viewset viewset) (some regex) infl).2.2 with _ | s
    · simp [hi, firstHit, itemParamHit, PyDict.get]
    · rcases hp : (get_resource_items (.viewset viewset) (some regex) infl).1 with _ | pr
      · simp [hi, hp, firstHit, itemParamHit, PyDict.get]
      · simp only [hi, hp, firstHit, itemParamHit]
        rw [PyDict.get_setdefault]
        by_cases hk : k = pr
        · subst hk
          simp [PyDict.get]
        · have hk2 : ¬ (pr = k) := fun hc => hk hc.symm
          simp [PyDict.get, hk, hk2]

theorem get_ownMaps_sst (infl : List (String → String)) (regex : String)
    (cb : Option ViewsetInstance) (t : ModelType) :
    PyDict.get (ownMaps infl regex cb).specific_serializers_by_type t =
      firstHit (itemTypeHit t) (ownEntries infl regex cb) := by
  rcases cb with _ | viewset
  · rfl
  · simp only [ownMaps, ownEntries]
    rcases hi : (get_resource_items (.viewset viewset) (some regex) infl).2.2 with _ | s
    · simp [hi, firstHit, itemTypeHit, PyDict.get]
    · rcases hm : (get_resource_items (.viewset viewset) (some regex) infl).2.1 with _ | mo
      · simp [hi, hm, firstHit, itemTypeHit, PyDict.get]
      · simp only [hi, hm, firstHit, itemTypeHit]
        rw [PyDict.get_setdefault]
        by_cases hk : t = mo
        · subst hk
          simp [PyDict.get]
        · have hk2 : ¬ (mo = t) := fun hc => hk hc.symm
          simp [PyDict.get, hk, hk2]

mutual

theorem lsp_nodup (infl : List (String → String)) (p : RoutePattern) :
    PyDict.NoDupKeys (lookup_serializer_parameters infl p).specific_serializers ∧
    PyDict.NoDupKeys (lookup_serializer_parameters infl p).specific_serializers_by_type := by
  cases p with
  | node regex callback children =>
      exact mergeChildren_nodup infl (ownMaps infl regex callback) children
        (ownMaps_nodup infl regex callback).1 (ownMaps_nodup infl regex callback).2

theorem mergeChildren_nodup (infl : List (String → String)) (acc : SerializerMaps)
    (ps : RoutePatterns)
    (h1 : PyDict.NoDupKeys acc.specific_serializers)
    (h2 : PyDict.NoDupKeys acc.specific_serializers_by_type) :
    PyDict.NoDupKeys (mergeChildren infl acc ps).specific_serializers ∧
    PyDict.NoDupKeys (mergeChildren infl acc ps).specific_serializers_by_type := by
  cases ps with
  | nil => exact ⟨h1, h2⟩
  | cons child rest =>
      have hr := lsp_nodup infl child
      exact mergeChildren_nodup infl
        { specific_serializers :=
            PyDict.update (lookup_serializer_parameters infl child).specific_serializers
              acc.specific_serializers
          specific_serializers_by_type :=
            PyDict.update (lookup_serializer_parameters infl child).specific_serializers_by_type
              acc.specific_serializers_by_type }
        rest (PyDict.nodup_update _ _ hr.1) (PyDict.nodup_update _ _ hr.2)

end

mutual

theorem lsp_firstHit (infl : List (String → String)) (p : RoutePattern) :
    (∀ k, PyDict.get (lookup_serializer_parameters infl p).specific_serializers k =
      firstHit (itemParamHit k) (resourceEntries infl p)) ∧
    (∀ t, PyDict.get (lookup_serializer_parameters infl p).specific_serializers_by_type t =
      firstHit (itemTypeHit t) (resourceEntries infl p)) := by
  cases p with
  | node regex callback children =>
      have hmc := mergeChildren_firstHit infl (ownMaps infl regex callback) children
        (ownMaps_nodup infl regex callback).1 (ownMaps_nodup infl regex callback).2
      constructor
      · intro k
        have h1 : lookup_serializer_parameters infl (.node regex callback children) =
            mergeChildren infl (ownMaps infl regex callback) children := rfl
        have h2 : resourceEntries infl (.node regex callback children) =
            ownEntries infl regex callback ++ resourceEntriesList infl children := rfl
        rw [h1, hmc.1 k, get_ownMaps_ss, h2, firstHit_append]
      · intro t
        have h1 : lookup_serializer_parameters infl (.node regex callback children) =
            mergeChildren infl (ownMaps infl regex callback) children := rfl
        have h2 : resourceEntries infl (.node regex callback children) =
            ownEntries infl regex callback ++ resourceEntriesList infl children := rfl
        rw [h1, hmc.2 t, get_ownMaps_sst, h2, firstHit_append]

theorem mergeChildren_firstHit (infl : List (String → String)) (acc : SerializerMaps)
    (ps : RoutePatterns)
    (h1 : PyDict.NoDupKeys acc.specific_serializers)
    (h2 : PyDict.NoDupKeys acc.specific_serializers_by_type) :
    (∀ k, PyDict.get (mergeChildren infl acc ps).specific_serializers k =
      orO (PyDict.get acc.specific_serializers k)
        (firstHit (itemParamHit k) (resourceEntriesList infl ps))) ∧
    (∀ t, PyDict.get (mergeChildren infl acc ps).specific_serializers_by_type t =
      orO (PyDict.get acc.specific_serializers_by_type t)
        (firstHit (itemTypeHit t) (resourceEntriesList infl ps))) := by
  cases ps with
  | nil =>
      constructor
      · intro k
        simp [mergeChildren, resourceEntriesList, firstHit]
      · intro t
        simp [mergeChildren, resourceEntriesList, firstHit]
  | cons child rest =>
      have hrn := lsp_nodup infl child
      have hr := lsp_firstHit infl child
      have ih := mergeChildren_firstHit infl
        { specific_serializers :=
            PyDict.update (lookup_serializer_parameters infl child).specific_serializers
              acc.specific_serializers
          specific_serializers_by_type :=
            PyDict.update (lookup_serializer_parameters infl child).specific_serializers_by_type
              acc.specific_serializers_by_type }
        rest (PyDict.nodup_update _ _ hrn.1) (PyDict.nodup_update _ _ hrn.2)
      have h3 : resourceEntriesList infl (.cons child rest) =
          resourceEntries infl child ++ resourceEntriesList infl rest := rfl
      constructor
      · intro k
        have hstep : mergeChildren infl acc (.cons child rest) =
            mergeChildren infl
              { specific_serializers :=
                  PyDict.update (lookup_serializer_parameters infl child).specific_serializers
                    acc.specific_serializers
                specific_serializers_by_type :=
                  PyDict.update
                    (lookup_serializer_parameters infl child).specific_serializers_by_type
                    acc.specific_serializers_by_type }
              rest := rfl
        rw [hstep, ih.1 k]
        show orO (PyDict.get (PyDict.update
            (lookup_serializer_parameters infl child).specific_serializers
            acc.specific_serializers) k) _ = _
        rw [PyDict.get_update, PyDict.getLast_eq_get _ _ h1, hr.1 k, orO_assoc,
          h3, firstHit_append]
      · intro t
        have hstep : mergeChildren infl acc (.cons child rest) =
            mergeChildren infl
              { specific_serializers :=
                  PyDict.update (lookup_serializer_parameters infl child).specific_serializers
                    acc.specific_serializers
                specific_serializers_by_type :=
                  PyDict.update
                    (lookup_serializer_parameters infl child).specific_serializers_by_type
                    acc.specific_serializers_by_type }
              rest := rfl
        rw [hstep, ih.2 t]
        show orO (PyDict.get (PyDict.update
            (lookup_serializer_parameters infl child).specific_serializers_by_type
            acc.specific_serializers_by_type) t) _ = _
        rw [PyDict.get_update, PyDict.getLast_eq_get _ _ h2, hr.2 t, orO_assoc,
          h3, firstHit_append]

end

/-- C7: the resolver's recursive merge is setdefault-style first-writer-wins in
the deterministic pre-order route traversal — the discovered maps agree with a
plain left fold of setdefault-insertions over the pre-order resource items —
and entries already present in the accumulated maps are never overwritten when
the children of a node (deeper levels) are merged in. -/
theorem spec_C7 (infl : List (String → String)) (p : RoutePattern) :
    (∀ k, PyDict.get (lookup_serializer_parameters infl p).specific_serializers k =
      PyDict.get (((resourceEntries infl p).foldl applyResourceItem
        ⟨[], []⟩).specific_serializers) k) ∧
    (∀ t, PyDict.get (lookup_serializer_parameters infl p).specific_serializers_by_type t =
      PyDict.get (((resourceEntries infl p).foldl applyResourceItem
        ⟨[], []⟩).specific_serializers_by_type) t) ∧
    (∀ acc ps, PyDict.NoDupKeys acc.specific_serializers →
      PyDict.NoDupKeys acc.specific_serializers_by_type →
      (∀ k v, PyDict.get acc.specific_serializers k = some v →
        PyDict.get (mergeChildren infl acc ps).specific_serializers k = some v) ∧
      (∀ t v, PyDict.get acc.specific_serializers_by_type t = some v →
        PyDict.get (mergeChildren infl acc ps).specific_serializers_by_type t = some v)) := by
  refine ⟨?_, ?_, ?_⟩
  · intro k
    rw [(lsp_firstHit infl p).1 k, get_foldApply_ss]
    rfl
  · intro t
    rw [(lsp_firstHit infl p).2 t, get_foldApply_sst]
    rfl
  · intro acc ps hn1 hn2
    constructor
    · intro k v hv
      rw [(mergeChildren_firstHit infl acc ps hn1 hn2).1 k, hv]
      rfl
    · intro t v hv
      rw [(mergeChildren_firstHit infl acc ps hn1 hn2).2 t, hv]
      rfl

theorem spec_C7_witness :
    PyDict.get (mergeChildren []
      { specific_serializers := [("foo-type", fooSerializer)]
        specific_serializers_by_type := [] } .nil).specific_serializers "foo-type" =
      some fooSerializer :=
  ((spec_C7 [] (.node "" none .nil)).2.2
    { specific_serializers := [("foo-type", fooSerializer)]
      specific_serializers_by_type := [] } .nil (by decide) (by decide)).1
    "foo-type" fooSerializer (by decide)

/-- C6: explicitly supplied `specific_serializers` / `specific_serializers_by_type`
entries override route-derived entries on key collision in the merged maps. -/
theorem spec_C6 (root : RoutePattern) (infl : List (String → String))
    (explicit_ss : List (String × Serializer))
    (explicit_sst : List (ModelType × Serializer))
    (h1 : PyDict.NoDupKeys explicit_ss) (h2 : PyDict.NoDupKeys explicit_sst) :
    (∀ k v, PyDict.get explicit_ss k = some v →
      PyDict.get (merge_serializer_parameters root infl explicit_ss
        explicit_sst).specific_serializers k = some v) ∧
    (∀ t v, PyDict.get explicit_sst t = some v →
      PyDict.get (merge_serializer_parameters root infl explicit_ss
        explicit_sst).specific_serializers_by_type t = some v) := by
  constructor
  · intro k v hv
    show PyDict.get (PyDict.update
      (lookup_serializer_parameters infl root).specific_serializers explicit_ss) k = some v
    rw [PyDict.get_update, PyDict.getLast_eq_get _ _ h1, hv]
    rfl
  · intro t v hv
    show PyDict.get (PyDict.update
      (lookup_serializer_parameters infl root).specific_serializers_by_type explicit_sst) t =
      some v
    rw [PyDict.get_update, PyDict.getLast_eq_get _ _ h2, hv]
    rfl

/-- Serializer registered for `"widgets"` by its route (explicit `Meta.parameter`). -/
def schemaA : Serializer := { styp := 21, sid := 1, metaParameter := some "widgets" }

/-- Serializer supplied explicitly for `"widgets"`. -/
def schemaB : Serializer := { styp := 22, sid := 2 }

/-- Viewset serving `schemaA`. -/
def widgetsViewset : ViewsetInstance := { serializer := schemaA, get_queryset := none }

/-- Route deriving `"widgets" → schemaA`. -/
def widgetsRoot : RoutePattern := .node "^widgets/$" (some widgetsViewset) .nil

theorem spec_C6_witness :
    PyDict.get (merge_serializer_parameters widgetsRoot [] [("widgets", schemaB)]
      []).specific_serializers "widgets" = some schemaB ∧
    PyDict.get (lookup_serializer_parameters [] widgetsRoot).specific_serializers "widgets" =
      some schemaA :=
  ⟨(spec_C6 widgetsRoot [] [("widgets", schemaB)] [] (by decide) (by decide)).1
    "widgets" schemaB (by decide), by decide⟩

/-- Model with a human-readable singular name, for the C8 counterexample. -/
def gadgetModel : ModelType := { mid := 3, verbose_name := "gadget", className := "Gadget" }

/-- Serializer declaring `Meta.model` but no explicit `Meta.parameter`. -/
def gadgetSerializer : Serializer := { styp := 9, sid := 9, metaModel := some gadgetModel }

/-- Viewset serving `gadgetSerializer`, without `get_queryset`. -/
def gadgetViewset : ViewsetInstance := { serializer := gadgetSerializer, get_queryset := none }

/-- C8 counterexample: no explicit parameter is declared and the supplied URL
pattern `"^api"` does not match the capture regex, yet — although the model's
verbose name `"gadget"` is available — `get_resource_items` yields no
parameter at all; the verbose-name fallback of the claim only fires when no
pattern is supplied (`pattern=None`), as the last conjunct shows. -/
theorem spec_C8_cex :
    (initialResourceItems (.viewset gadgetViewset)).1 = none ∧
    urlMatch "^api" = none ∧
    (initialResourceItems (.viewset gadgetViewset)).2.1 = some gadgetModel ∧
    (get_resource_items (.viewset gadgetViewset) (some "^api") []).1 = none ∧
    (get_resource_items (.viewset gadgetViewset) none []).1 = some "gadget" := by
  decide

/-- C8 (amended): an explicit `Meta.parameter` short-circuits inflection
entirely; otherwise, when a URL pattern is supplied the uninflected name comes
only from the capture-group match of `^(name)/$` (no parameter is derived when
the match fails, even if a model verbose name is available); the model's
verbose name is used only when no URL pattern is supplied at all — which never
happens for route entries the resolver processes, since it always passes the
entry's pattern. -/
theorem spec_C8 (i : RIInstance) (pat : String) (infl : List (String → String)) :
    (∀ p, (initialResourceItems i).1 = some p →
      (get_resource_items i (some pat) infl).1 = some p ∧
      (get_resource_items i none infl).1 = some p) ∧
    ((initialResourceItems i).1 = none →
      (∀ u, urlMatch pat = some u →
        (get_resource_items i (some pat) infl).1 = some (applyInflectors infl u)) ∧
      (urlMatch pat = none → (get_resource_items i (some pat) infl).1 = none) ∧
      (∀ m, (initialResourceItems i).2.1 = some m →
        (get_resource_items i none infl).1 = some (applyInflectors infl m.verbose_name)) ∧
      ((initialResourceItems i).2.1 = none →
        (get_resource_items i none infl).1 = none)) := by
  constructor
  · intro p hexp
    constructor
    · simp [get_resource_items, uninflectedName, hexp]
    · simp [get_resource_items, uninflectedName, hexp]
  · intro hexp
    refine ⟨?_, ?_, ?_, ?_⟩
    · intro u hu
      simp [get_resource_items, uninflectedName, hexp, hu]
    · intro hu
      simp [get_resource_items, uninflectedName, hexp, hu]
    · intro m hm
      simp [get_resource_items, uninflectedName, hexp, hm]
    · intro hm
      simp [get_resource_items, uninflectedName, hexp, hm]

theorem spec_C8_witness :
    (get_resource_items (.viewset gadgetViewset) (some "^api") []).1 = none :=
  ((spec_C8 (.viewset gadgetViewset) "^api" []).2 (by decide)).2.1 (by decide)

/-- C9: whenever the parameter is derived from an uninflected name rather than
declared explicitly, the result is the left-to-right composition of the
configured inflectors applied to that name; with the default two-transform
sequence this is `parameterize(pluralize(name))`, and with an empty sequence
the uninflected name is used verbatim. -/
theorem spec_C9 (i : RIInstance) (pat : Option String) (u : String)
    (hexp : (initialResourceItems i).1 = none)
    (hunf : uninflectedName none pat (initialResourceItems i).2.1 = some u) :
    (∀ infl, (get_resource_items i pat infl).1 = some (applyInflectors infl u)) ∧
    (∀ pluralize parameterize : String → String,
      (get_resource_items i pat [pluralize, parameterize]).1 =
        some (parameterize (pluralize u))) ∧
    (get_resource_items i pat []).1 = some u := by
  have main : ∀ infl, (get_resource_items i pat infl).1 = some (applyInflectors infl u) := by
    intro infl
    simp [get_resource_items, hexp, hunf]
  exact ⟨main, fun pluralize parameterize => main [pluralize, parameterize], main []⟩

/-- Serializer with neither explicit parameter nor model, served at
`^person/$`. -/
def personSerializer : Serializer := { styp := 11, sid := 11 }

/-- Viewset serving `personSerializer`. -/
def personViewset : ViewsetInstance := { serializer := personSerializer, get_queryset := none }

theorem spec_C9_witness :
    (get_resource_items (.viewset personViewset) (some "^person/$")
      [fun s => s ++ "s", fun s => s]).1 = some "persons" :=
  (spec_C9 (.viewset personViewset) (some "^person/$") "person"
    (by decide) (by decide)).2.1 (fun s => s ++ "s") (fun s => s)

theorem get_paramsFold (l : List (String × Serializer)) (acc0 : List (Nat × String)) (t : Nat) :
    PyDict.get (l.foldl (fun acc e => PyDict.setitem acc e.2.styp e.1) acc0) t =
      orO (PyDict.lastHit (fun e => if e.2.styp = t then some e.1 else none) l)
        (PyDict.get acc0 t) := by
  induction l generalizing acc0 with
  | nil => simp [PyDict.lastHit]
  | cons e rest ih =>
      show PyDict.get (rest.foldl (fun acc e => PyDict.setitem acc e.2.styp e.1)
        (PyDict.setitem acc0 e.2.styp e.1)) t = _
      rw [ih, PyDict.get_setitem, PyDict.lastHit_cons]
      by_cases h : e.2.styp = t
      · have h2 : t = e.2.styp := h.symm
        rw [if_pos h, if_pos h2]
        cases hl : PyDict.lastHit (fun e => if e.2.styp = t then some e.1 else none) rest <;>
          simp [hl]
      · have h2 : ¬ (t = e.2.styp) := fun hc => h hc.symm
        rw [if_neg h, if_neg h2]
        cases hl : PyDict.lastHit (fun e => if e.2.styp = t then some e.1 else none) rest <;>
          simp [hl]

theorem lastHit_styp_mem {l : List (String × Serializer)} {t : Nat} {p : String}
    (h : PyDict.lastHit (fun e => if e.2.styp = t then some e.1 else none) l = some p) :
    ∃ s, (p, s) ∈ l ∧ s.styp = t := by
  induction l with
  | nil => simp [PyDict.lastHit] at h
  | cons e rest ih =>
      rw [PyDict.lastHit_cons] at h
      cases hl : PyDict.lastHit (fun e => if e.2.styp = t then some e.1 else none) rest with
      | some q =>
          rw [hl] at h
          simp only [orO_some, Option.some.injEq] at h
          subst h
          obtain ⟨s, hmem, hst⟩ := ih hl
          exact ⟨s, List.mem_cons_of_mem e hmem, hst⟩
      | none =>
          rw [hl, orO_none_left] at h
          by_cases hs : e.2.styp = t
          · rw [if_pos hs] at h
            injection h with h
            have heq : (p, e.2) = e := by rw [← h]
            exact ⟨e.2, List.mem_cons.mpr (Or.inl heq), hs⟩
          · rw [if_neg hs] at h
            cases h

theorem lastHit_styp_of_get {l : List (String × Serializer)}
    (hnd : PyDict.NoDupKeys l)
    (hinj : ∀ p1 p2 s1 s2, PyDict.get l p1 = some s1 → PyDict.get l p2 = some s2 →
      s1.styp = s2.styp → p1 = p2)
    {p : String} {s : Serializer} (hget : PyDict.get l p = some s) :
    PyDict.lastHit (fun e => if e.2.styp = s.styp then some e.1 else none) l = some p := by
  induction l with
  | nil => simp [PyDict.get] at hget
  | cons e rest ih =>
      have hk : e.1 ∉ PyDict.keys rest := (List.nodup_cons.mp hnd).1
      have hrest : PyDict.NoDupKeys rest := (List.nodup_cons.mp hnd).2
      rw [PyDict.lastHit_cons]
      by_cases he : e.1 = p
      · have hs : s = e.2 := by
          rw [PyDict.get, if_pos he] at hget
          injection hget with hget
          exact hget.symm
        have hrnone : PyDict.lastHit (fun e => if e.2.styp = s.styp then some e.1 else none)
            rest = none := by
          cases hl : PyDict.lastHit (fun e => if e.2.styp = s.styp then some e.1 else none)
              rest with
          | none => rfl
          | some q =>
              exfalso
              obtain ⟨s', hmem, hst⟩ := lastHit_styp_mem hl
              have hqk : q ∈ PyDict.keys rest := List.mem_map_of_mem Prod.fst hmem
              have hqne : ¬ (e.1 = q) := by
                intro hc
                apply hk
                rw [hc]
                exact hqk
              have hget' : PyDict.get (e :: rest) q = some s' := by
                rw [PyDict.get, if_neg hqne]
                exact PyDict.get_of_mem_nodup hrest hmem
              have heqp : q = p := hinj q p s' s hget' hget hst
              apply hk
              rw [he, ← heqp]
              exact hqk
        rw [hrnone, orO_none_left, hs]
        simp [he]
      · rw [PyDict.get, if_neg he] at hget
        have hinj2 : ∀ p1 p2 s1 s2, PyDict.get rest p1 = some s1 →
            PyDict.get rest p2 = some s2 → s1.styp = s2.styp → p1 = p2 := by
          intro p1 p2 s1 s2 hg1 hg2 hst
          have hne1 : ¬ (e.1 = p1) := by
            intro hc
            have hnone : PyDict.get rest p1 = none := by
              apply (PyDict.get_eq_none_iff rest p1).mpr
              rw [← hc]
              exact hk
            rw [hnone] at hg1
            cases hg1
          have hne2 : ¬ (e.1 = p2) := by
            intro hc
            have hnone : PyDict.get rest p2 = none := by
              apply (PyDict.get_eq_none_iff rest p2).mpr
              rw [← hc]
              exact hk
            rw [hnone] at hg2
            cases hg2
          refine hinj p1 p2 s1 s2 ?_ ?_ hst
          · rw [PyDict.get, if_neg hne1]
            exact hg1
          · rw [PyDict.get, if_neg hne2]
            exact hg2
        rw [ih hrest hinj2 hget]
        rfl

theorem merge_parameters_lastHit (root : RoutePattern) (infl : List (String → String))
    (ess : List (String × Serializer)) (esst : List (ModelType × Serializer)) (t : Nat) :
    PyDict.get (merge_serializer_parameters root infl ess esst).parameters t =
      PyDict.lastHit (fun e => if e.2.styp = t then some e.1 else none)
        (merge_serializer_parameters root infl ess esst).specific_serializers := by
  show PyDict.get
      (((merge_serializer_parameters root infl ess esst).specific_serializers).foldl
        (fun acc e => PyDict.setitem acc e.2.styp e.1) []) t = _
  rw [get_paramsFold]
  simp [PyDict.get]

/-- C5 (amended): after the merged maps are computed, `parameters` is the
inverse index of `specific_serializers` keyed by serializer type: whenever the
serializer types of the registered serializers are pairwise distinct across
parameters, `parameters[type(specific_serializers[p])] = p` for every
registered parameter `p`, and conversely every `parameters` entry comes from a
registered serializer of that type.  Without the distinctness assumption two
parameters whose serializers share a Python class collide in `parameters` and
the later binding wins. -/
theorem spec_C5 (root : RoutePattern) (infl : List (String → String))
    (ess : List (String × Serializer)) (esst : List (ModelType × Serializer))
    (M : MergedMaps) (hM : M = merge_serializer_parameters root infl ess esst)
    (hinj : ∀ p1 p2 s1 s2, PyDict.get M.specific_serializers p1 = some s1 →
      PyDict.get M.specific_serializers p2 = some s2 → s1.styp = s2.styp → p1 = p2) :
    (∀ p s, PyDict.get M.specific_serializers p = some s →
      PyDict.get M.parameters s.styp = some p) ∧
    (∀ t p, PyDict.get M.parameters t = some p →
      ∃ s, PyDict.get M.specific_serializers p = some s ∧ s.styp = t) := by
  subst hM
  have hnd : PyDict.NoDupKeys
      (merge_serializer_parameters root infl ess esst).specific_serializers := by
    show PyDict.NoDupKeys (PyDict.update
      (lookup_serializer_parameters infl root).specific_serializers ess)
    exact PyDict.nodup_update _ _ (lsp_nodup infl root).1
  constructor
  · intro p s hget
    rw [merge_parameters_lastHit]
    exact lastHit_styp_of_get hnd hinj hget
  · intro t p hp
    rw [merge_parameters_lastHit] at hp
    obtain ⟨s, hmem, hst⟩ := lastHit_styp_mem hp
    exact ⟨s, PyDict.get_of_mem_nodup hnd hmem, hst⟩

/-- First serializer of Python class 7. -/
def sGammaA : Serializer := { styp := 7, sid := 1 }

/-- Second, distinct serializer instance of the same Python class 7. -/
def sGammaB : Serializer := { styp := 7, sid := 2 }

/-- Route resolver root with no callbacks and no nested patterns. -/
def emptyRoot : RoutePattern := .node "" none .nil

/-- C5 counterexample: with two parameters `"a"`, `"b"` mapped to serializer
instances of the same Python class, the merged `parameters` map holds only the
later binding, so the entry for the type of `specific_serializers["a"]` is
`"b"`, not `"a"` — the claimed inverse-index property fails. -/
theorem spec_C5_cex :
    PyDict.get (merge_serializer_parameters emptyRoot []
      [("a", sGammaA), ("b", sGammaB)] []).specific_serializers "a" = some sGammaA ∧
    PyDict.get (merge_serializer_parameters emptyRoot []
      [("a", sGammaA), ("b", sGammaB)] []).parameters sGammaA.styp = some "b" ∧
    some "b" ≠ (some "a" : Option String) := by decide

theorem spec_C5_witness :
    PyDict.get (merge_serializer_parameters emptyRoot [] [("a", sGammaA)]
      []).parameters 7 = some "a" := by
  have hinj : ∀ p1 p2 s1 s2,
      PyDict.get (merge_serializer_parameters emptyRoot [] [("a", sGammaA)]
        []).specific_serializers p1 = some s1 →
      PyDict.get (merge_serializer_parameters emptyRoot [] [("a", sGammaA)]
        []).specific_serializers p2 = some s2 →
      s1.styp = s2.styp → p1 = p2 := by
    intro p1 p2 s1 s2 h1 h2 _
    have hss : (merge_serializer_parameters emptyRoot [] [("a", sGammaA)]
        []).specific_serializers = [("a", sGammaA)] := by decide
    rw [hss] at h1 h2
    have m1 := PyDict.mem_of_get_some h1
    have m2 := PyDict.mem_of_get_some h2
    rw [List.mem_singleton] at m1 m2
    have e1 : p1 = "a" := congrArg Prod.fst m1
    have e2 : p2 = "a" := congrArg Prod.fst m2
    rw [e1, e2]
  exact (spec_C5 emptyRoot [] [("a", sGammaA)] []
    (merge_serializer_parameters emptyRoot [] [("a", sGammaA)] []) rfl hinj).1
    "a" sGammaA (by decide)
